import Mathlib

/-!
Shallow embedding of the incremental stock-data pipeline in
`src/jdacosta/pricehistory` (files `app.py`, `stock_downloader.py`,
`snowflakescripts.py`, `enhanced_news_processor.py`): the incremental
fetch planner, the merge/dedup/save logic of the two
`format_and_save_data` implementations, the retry/backoff loop of the
fetch wrappers, and the staged upsert into the remote store.

Modelling conventions: data frames are lists of rows carrying the
source's (upper-cased) column schema; dates and timestamps are natural
numbers (days respectively seconds since the epoch, so `+ timedelta(days=1)`
is `+ 1` and date comparisons are `Nat` comparisons); numeric price
fields are integers; `retry_delay` (a Python float multiplied by exact
powers of two) is a rational number.  pandas `sort_values` is modelled
as a sort by the named column (`List.mergeSort`); pandas
`drop_duplicates(subset, keep="last")` is modelled by
`dropDuplicatesKeepLast`, which keeps a row exactly when no later row
has the same key, preserving the order of kept rows.
-/

/-- A row of the local price-history dataset, with the columns produced by
`app.py` `get_price_history` / `standardize_column_names` (lines 147-183,
281-289). -/
structure PriceRow where
  TICKER : String
  DATE : Nat
  OPEN_PRICE : Int
  HIGH_PRICE : Int
  LOW_PRICE : Int
  CLOSE_PRICE : Int
  VOLUME : Int
  DIVIDENDS : Int
  STOCK_SPLITS : Int
  DOWNLOAD_TIMESTAMP : Nat
deriving DecidableEq, Repr

/-- A row of the news dataset, with the columns produced by
`stock_downloader.py` `get_recent_news` (lines 124-152) — the same
fourteen columns that `app.py` `get_recent_news` emits after upper-casing
and that the remote `STOCK_NEWS` table declares in
`snowflakescripts.py` lines 312-330. -/
structure NewsRow where
  TICKER : String
  ID : String
  TITLE : String
  SUMMARY : String
  DESCRIPTION : String
  PUBLISHER : String
  LINK : String
  PUBLISH_TIME : Nat
  DISPLAY_TIME : Nat
  CONTENT_TYPE : String
  THUMBNAIL_URL : String
  IS_PREMIUM : Bool
  IS_HOSTED : Bool
  DOWNLOAD_TIMESTAMP : Nat
deriving DecidableEq, Repr

/-- Natural key of a price row: the dedup subset `["TICKER", "DATE"]`
used by both `format_and_save_data` implementations. -/
def priceKey (r : PriceRow) : String × Nat := (r.TICKER, r.DATE)

/-- Dedup key used by `app.py` `format_and_save_data` for news:
`subset=["ID"]` (line 481-483). -/
def newsIdKey (r : NewsRow) : String := r.ID

/-- Dedup key used by `stock_downloader.py` `format_and_save_data` for news:
`subset=["TICKER", "ID"]` (lines 214-216), which is also the primary key of
the remote `STOCK_NEWS` table. -/
def newsTickerIdKey (r : NewsRow) : String × String := (r.TICKER, r.ID)

/-- pandas `drop_duplicates(subset=key, keep="last")`: a row is kept
exactly when no later row carries the same key; kept rows stay in their
original relative order. -/
def dropDuplicatesKeepLast {α κ : Type} [DecidableEq κ] (key : α → κ) : List α → List α
  | [] => []
  | x :: xs =>
    if xs.any (fun y => decide (key y = key x)) then dropDuplicatesKeepLast key xs
    else x :: dropDuplicatesKeepLast key xs

/-- The last row of `l` whose key is `k` — the record that
`keep="last"` retains for that key. -/
def lastOccurrence {α κ : Type} [DecidableEq κ] (key : α → κ) (k : κ) (l : List α) : Option α :=
  (l.filter (fun y => decide (key y = k))).getLast?

theorem mem_of_mem_dropDuplicatesKeepLast {α κ : Type} [DecidableEq κ] (key : α → κ)
    {x : α} : ∀ {l : List α}, x ∈ dropDuplicatesKeepLast key l → x ∈ l := by
  intro l
  induction l with
  | nil => intro h; simp [dropDuplicatesKeepLast] at h
  | cons a t ih =>
    intro h
    rw [dropDuplicatesKeepLast] at h
    split at h
    · exact List.mem_cons_of_mem a (ih h)
    · rcases List.mem_cons.mp h with h | h
      · rw [h]; exact List.mem_cons_self a t
      · exact List.mem_cons_of_mem a (ih h)

theorem nodup_keys_dropDuplicatesKeepLast {α κ : Type} [DecidableEq κ] (key : α → κ) :
    ∀ l : List α, ((dropDuplicatesKeepLast key l).map key).Nodup := by
  intro l
  induction l with
  | nil => simp [dropDuplicatesKeepLast]
  | cons a t ih =>
    rw [dropDuplicatesKeepLast]
    split
    · exact ih
    · rename_i hany
      rw [List.map_cons, List.nodup_cons]
      refine ⟨?_, ih⟩
      intro hmem
      rcases List.mem_map.mp hmem with ⟨y, hy, hkey⟩
      exact hany (List.any_eq_true.mpr
        ⟨y, mem_of_mem_dropDuplicatesKeepLast key hy, by simp [hkey]⟩)

theorem getLast?_cons_of_ne_nil {α : Type} {a : α} {l : List α} (h : l ≠ []) :
    (a :: l).getLast? = l.getLast? := by
  cases l with
  | nil => exact absurd rfl h
  | cons b t => exact List.getLast?_cons_cons

/-- Characterization of `keep="last"` dedup: a row appears in the result
exactly when it is the last row of the input with its key. -/
theorem mem_dropDuplicatesKeepLast_iff {α κ : Type} [DecidableEq κ] (key : α → κ)
    (x : α) : ∀ l : List α,
      x ∈ dropDuplicatesKeepLast key l ↔ lastOccurrence key (key x) l = some x := by
  intro l
  induction l with
  | nil => simp [dropDuplicatesKeepLast, lastOccurrence]
  | cons a t ih =>
    rw [dropDuplicatesKeepLast]
    by_cases hany : t.any (fun y => decide (key y = key a)) = true
    · rw [if_pos hany, ih]
      unfold lastOccurrence
      by_cases hka : key a = key x
      · rcases List.any_eq_true.mp hany with ⟨y, hyt, hy⟩
        have hy' : key y = key a := of_decide_eq_true hy
        have hmemf : y ∈ t.filter (fun z => decide (key z = key x)) :=
          List.mem_filter.mpr ⟨hyt, by simp [hy', hka]⟩
        rw [List.filter_cons_of_pos (by simp [hka]),
          getLast?_cons_of_ne_nil (List.ne_nil_of_mem hmemf)]
      · rw [List.filter_cons_of_neg (by simpa using hka)]
    · rw [if_neg hany]
      have hnot : ∀ y ∈ t, ¬ key y = key a := by
        intro y hy hk
        exact hany (List.any_eq_true.mpr ⟨y, hy, by simp [hk]⟩)
      constructor
      · intro hx
        rcases List.mem_cons.mp hx with hxa | hxt
        · subst hxa
          unfold lastOccurrence
          rw [List.filter_cons_of_pos (by simp)]
          have hfnil : t.filter (fun z => decide (key z = key x)) = [] := by
            rw [List.filter_eq_nil_iff]
            intro z hz hdz
            exact hnot z hz (of_decide_eq_true hdz)
          rw [hfnil]
          rfl
        · have hxint := mem_of_mem_dropDuplicatesKeepLast key hxt
          have hka : ¬ key a = key x := by
            intro hEq
            exact hnot x hxint hEq.symm
          unfold lastOccurrence
          rw [List.filter_cons_of_neg (by simpa using hka)]
          exact (ih.mp hxt)
      · intro hlast
        by_cases hka : key a = key x
        · have hfnil : t.filter (fun z => decide (key z = key x)) = [] := by
            rw [List.filter_eq_nil_iff]
            intro z hz hdz
            exact hnot z hz (hka ▸ of_decide_eq_true hdz)
          unfold lastOccurrence at hlast
          rw [List.filter_cons_of_pos (by simp [hka]), hfnil] at hlast
          have : a = x := by simpa using hlast
          rw [← this]
          exact List.mem_cons_self a _
        · unfold lastOccurrence at hlast
          rw [List.filter_cons_of_neg (by simpa using hka)] at hlast
          exact List.mem_cons_of_mem a (ih.mpr hlast)

/-- When some batch row carries key `k`, the last occurrence of `k` in
`existing ++ batch` lies in the batch: on a key collision the merged
dataset keeps the batch's record. -/
theorem lastOccurrence_append_of_mem {α κ : Type} [DecidableEq κ] (key : α → κ) {k : κ}
    (e b : List α) (y : α) (hy : y ∈ b) (hk : key y = k) :
    lastOccurrence key k (e ++ b) = lastOccurrence key k b := by
  unfold lastOccurrence
  rw [List.filter_append, List.getLast?_append]
  have hmem : y ∈ b.filter (fun z => decide (key z = k)) :=
    List.mem_filter.mpr ⟨hy, by simp [hk]⟩
  cases hl : (b.filter (fun z => decide (key z = k))).getLast? with
  | none =>
    rw [List.getLast?_eq_none_iff] at hl
    exact absurd (hl ▸ hmem) (List.not_mem_nil y)
  | some v => rfl

/-- `combined_df.sort_values("DATE")` (app.py line 476, stock_downloader.py
line 242), modelled as a sort by the DATE column. -/
def sortByDateAsc (l : List PriceRow) : List PriceRow :=
  l.mergeSort (fun a b => decide (a.DATE ≤ b.DATE))

/-- `combined_df.sort_values("PUBLISH_TIME", ascending=False)` (app.py
lines 492-494, stock_downloader.py lines 238-240), modelled as a sort by
descending PUBLISH_TIME. -/
def sortByPublishTimeDesc (l : List NewsRow) : List NewsRow :=
  l.mergeSort (fun a b => decide (b.PUBLISH_TIME ≤ a.PUBLISH_TIME))

/-- The `combined_df` of `app.py` `format_and_save_data` (lines 450-461):
`pd.concat([existing_df, df])` when an existing non-empty dataset was
loaded, the new batch alone otherwise. -/
def appCombined {ρ : Type} (existing : Option (List ρ)) (df : List ρ) : List ρ :=
  match existing with
  | some e => if e.isEmpty then df else e ++ df
  | none => df

/-- `app.py` `format_and_save_data` for `data_type="price-history"`
(lines 433-508): concatenate with the existing dataset, deduplicate by
`["TICKER", "DATE"]` keeping the last record, sort ascending by DATE.
The value is the dataset written to the consolidated parquet file. -/
def format_and_save_data_app_price (existing : Option (List PriceRow))
    (df : List PriceRow) : List PriceRow :=
  sortByDateAsc (dropDuplicatesKeepLast priceKey (appCombined existing df))

/-- `app.py` `format_and_save_data` for `data_type="news"` (lines 433-508):
concatenate, deduplicate by `["ID"]` keeping the last record, sort by
descending PUBLISH_TIME. -/
def format_and_save_data_app_news (existing : Option (List NewsRow))
    (df : List NewsRow) : List NewsRow :=
  sortByPublishTimeDesc (dropDuplicatesKeepLast newsIdKey (appCombined existing df))

/-- A file-system operation issued while saving a dataset. -/
inductive FsOp
  | removeFile (path : String)
  | writeParquet (path : String)
  | renameFile (src dst : String)
deriving DecidableEq, Repr

/-- The file operations of `app.py` `format_and_save_data` (lines 496-508):
delete any old timestamped files matched by the glob, then a single
`to_parquet` directly onto the consolidated dataset path. -/
def format_and_save_data_app_ops (oldFiles : List String) (filepath : String) : List FsOp :=
  oldFiles.map FsOp.removeFile ++ [FsOp.writeParquet filepath]

/-- Result of `stock_downloader.py` `format_and_save_data`: the returned
boolean, the dataset content written to the parquet file (if any), and
the file operations performed. -/
structure SdSaveResult (ρ : Type) where
  ok : Bool
  written : Option (List ρ)
  ops : List FsOp
deriving DecidableEq, Repr

/-- `stock_downloader.py` `format_and_save_data` for price history
(lines 168-256): `None`/empty input returns `False` without touching the
file; with an existing non-empty dataset the concatenation is deduplicated
by `["TICKER", "DATE"]` (keep last) and sorted by DATE; otherwise the new
batch is written as-is (`final_df = df`, line 247); the write is a single
`to_parquet` directly onto the dataset path (line 251). -/
def format_and_save_data_sd_price (existing : Option (List PriceRow))
    (df : Option (List PriceRow)) (filepath : String) : SdSaveResult PriceRow :=
  match df with
  | none => ⟨false, none, []⟩
  | some d =>
    if d.isEmpty then ⟨false, none, []⟩
    else
      let final :=
        match existing with
        | some e =>
          if e.isEmpty then d
          else sortByDateAsc (dropDuplicatesKeepLast priceKey (e ++ d))
        | none => d
      ⟨true, some final, [FsOp.writeParquet filepath]⟩

/-- `stock_downloader.py` `format_and_save_data` for `data_type="news"`
(lines 168-256): as for price history but deduplicated by
`["TICKER", "ID"]` and sorted by descending PUBLISH_TIME; without an
existing non-empty dataset the batch is written as-is. -/
def format_and_save_data_sd_news (existing : Option (List NewsRow))
    (df : Option (List NewsRow)) (filepath : String) : SdSaveResult NewsRow :=
  match df with
  | none => ⟨false, none, []⟩
  | some d =>
    if d.isEmpty then ⟨false, none, []⟩
    else
      let final :=
        match existing with
        | some e =>
          if e.isEmpty then d
          else sortByPublishTimeDesc (dropDuplicatesKeepLast newsTickerIdKey (e ++ d))
        | none => d
      ⟨true, some final, [FsOp.writeParquet filepath]⟩

/-- Dedup-then-sort specification shared by all merge paths: after
`dropDuplicatesKeepLast` and a sort, each key appears at most once and a
row is present exactly when it is the last input row with its key. -/
theorem mergeSort_dropDuplicates_spec {α κ : Type} [DecidableEq κ] (key : α → κ)
    (le : α → α → Bool) (l : List α) :
    (((dropDuplicatesKeepLast key l).mergeSort le).map key).Nodup ∧
    ∀ x, x ∈ (dropDuplicatesKeepLast key l).mergeSort le ↔
      lastOccurrence key (key x) l = some x := by
  constructor
  · have hperm := (List.mergeSort_perm (dropDuplicatesKeepLast key l) le).map key
    exact hperm.nodup_iff.mpr (nodup_keys_dropDuplicatesKeepLast key l)
  · intro x
    rw [(List.mergeSort_perm (dropDuplicatesKeepLast key l) le).mem_iff]
    exact mem_dropDuplicatesKeepLast_iff key x l

/-- The fetch a call to `get_price_history` issues (or `skip` when it
returns `None` without fetching because the dataset is already up to
date). -/
inductive PricePlan
  | skip
  | fetchMaxPeriod
  | fetchStartEnd (s e : Nat)
  | fetchStart (s : Nat)
  | fetchPeriod (period : String)
deriving DecidableEq, Repr

/-- `datetime(2000, 1, 1)` (app.py lines 220-225), as days since
1970-01-01 on the same scale as `PriceRow.DATE`. -/
def cutoff2000 : Nat := 10957

/-- `pd.to_datetime(existing_df["DATE"]).min()` over a non-empty dataset
(app.py line 219); `0` for the empty dataset, on which the planner never
evaluates it. -/
def minDATE : List PriceRow → Nat
  | [] => 0
  | r :: rs => rs.foldl (fun m x => min m x.DATE) r.DATE

/-- `pd.to_datetime(df["DATE"]).max()` over a non-empty dataset
(`get_last_download_date`, app.py lines 112-145). -/
def maxDATE : List PriceRow → Nat
  | [] => 0
  | r :: rs => rs.foldl (fun m x => max m x.DATE) r.DATE

/-- The `stock.history(...)` call selection of app.py lines 259-275:
`period="max"` when `use_period_instead`, else start+end, else start
to now, else the configured period. -/
def historyCall (use_period_instead : Bool) (start_date end_date : Option Nat)
    (period : String) : PricePlan :=
  if use_period_instead then .fetchMaxPeriod
  else
    match start_date, end_date with
    | some s, some e => .fetchStartEnd s e
    | some s, none => .fetchStart s
    | none, _ => .fetchPeriod period

/-- The incremental planning of `app.py` `get_price_history`
(lines 209-275): with incremental mode and no explicit start date,
inspect the existing dataset; data whose minimum DATE is at or after the
2000-01-01 cutoff triggers a full `period="max"` refetch; otherwise the
fetch starts the day after the existing maximum DATE, or the call is
skipped when that start would be on or after today. -/
def get_price_history_plan (incremental : Bool) (start_date end_date : Option Nat)
    (period : String) (existing : Option (List PriceRow)) (today : Nat) : PricePlan :=
  if incremental ∧ start_date = none then
    match existing with
    | some e =>
      if e.isEmpty then historyCall false start_date end_date period
      else
        let last_date := maxDATE e
        let min_date := minDATE e
        if min_date ≥ cutoff2000 then historyCall true start_date end_date period
        else
          let potential_start := last_date + 1
          if potential_start ≥ today then .skip
          else historyCall false (some potential_start) end_date period
    | none => historyCall false start_date end_date period
  else historyCall false start_date end_date period

/-- One run of the retry loop shared by the fetch wrappers
(`get_price_history` app.py lines 252-306, `get_recent_news` app.py
lines 321-415 and stock_downloader.py lines 105-166): the returned
value, the sleeps performed between attempts, and how many attempts ran. -/
structure RetryRun (α : Type) where
  result : Option α
  sleeps : List ℚ
  attemptsMade : Nat
deriving DecidableEq, Repr

/-- `for attempt in range(...)` from attempt index `i` with `fuel`
iterations left: a successful attempt returns immediately; a failed
attempt sleeps `retry_delay * 2 ** attempt` unless it was the final one,
which returns `None`. -/
def retryLoopFrom {α : Type} (retry_delay : ℚ) (outcome : Nat → Option α) :
    Nat → Nat → RetryRun α
  | _, 0 => ⟨none, [], 0⟩
  | i, fuel + 1 =>
    match outcome i with
    | some r => ⟨some r, [], 1⟩
    | none =>
      if fuel = 0 then ⟨none, [], 1⟩
      else
        let rest := retryLoopFrom retry_delay outcome (i + 1) fuel
        ⟨rest.result, retry_delay * 2 ^ i :: rest.sleeps, rest.attemptsMade + 1⟩

/-- The retry/backoff loop of the fetch wrappers, `retry_attempts`
attempts starting at attempt index 0. `outcome i = some r` models the
`i`-th API call returning `r`; `outcome i = none` models it raising. -/
def retryLoop {α : Type} (retry_attempts : Nat) (retry_delay : ℚ)
    (outcome : Nat → Option α) : RetryRun α :=
  retryLoopFrom retry_delay outcome 0 retry_attempts

theorem retryLoopFrom_attemptsMade_le {α : Type} (d : ℚ) (f : Nat → Option α) :
    ∀ (fuel i : Nat), (retryLoopFrom d f i fuel).attemptsMade ≤ fuel := by
  intro fuel
  induction fuel with
  | zero => intro i; simp [retryLoopFrom]
  | succ n ih =>
    intro i
    rw [retryLoopFrom]
    cases f i with
    | some r => simp
    | none =>
      by_cases hn : n = 0
      · simp [hn]
      · simpa [hn] using Nat.succ_le_succ (ih (i + 1))

theorem retryLoopFrom_sleeps {α : Type} (d : ℚ) (f : Nat → Option α) :
    ∀ (fuel i : Nat), (retryLoopFrom d f i fuel).sleeps =
      (List.range ((retryLoopFrom d f i fuel).attemptsMade - 1)).map
        (fun j => d * 2 ^ (i + j)) := by
  intro fuel
  induction fuel with
  | zero => intro i; simp [retryLoopFrom]
  | succ n ih =>
    intro i
    rw [retryLoopFrom]
    cases f i with
    | some r => simp
    | none =>
      by_cases hn : n = 0
      · simp [hn]
      · simp only [hn, if_false]
        have hpos : 1 ≤ (retryLoopFrom d f (i + 1) n).attemptsMade := by
          cases n with
          | zero => exact absurd rfl hn
          | succ m =>
            rw [retryLoopFrom]
            cases f (i + 1) with
            | some r => simp
            | none =>
              by_cases hm : m = 0
              · simp [hm]
              · simp [hm]
        simp only [Nat.add_sub_cancel]
        rw [ih (i + 1)]
        generalize hA : (retryLoopFrom d f (i + 1) n).attemptsMade = A at hpos ⊢
        cases A with
        | zero => exact absurd hpos (by omega)
        | succ k =>
          simp only [Nat.add_sub_cancel, List.range_succ_eq_map, List.map_cons,
            List.map_map, Function.comp, Nat.add_zero, pow_zero]
          refine congrArg (d * 2 ^ i :: ·) (List.map_congr_left ?_)
          intro j _
          simp only [Function.comp_apply]
          have : i + 1 + j = i + Nat.succ j := by omega
          rw [this]

theorem retryLoopFrom_all_fail {α : Type} (d : ℚ) (f : Nat → Option α) :
    ∀ (fuel i : Nat), (∀ j, j < fuel → f (i + j) = none) →
      (retryLoopFrom d f i fuel).result = none ∧
      (retryLoopFrom d f i fuel).attemptsMade = fuel := by
  intro fuel
  induction fuel with
  | zero => intro i _; simp [retryLoopFrom]
  | succ n ih =>
    intro i hfail
    have hi : f i = none := by simpa using hfail 0 (Nat.succ_pos n)
    rw [retryLoopFrom, hi]
    by_cases hn : n = 0
    · simp [hn]
    · have hrest := ih (i + 1) (fun j hj => by
        have := hfail (j + 1) (Nat.succ_lt_succ hj)
        simpa [Nat.add_assoc, Nat.add_comm, Nat.add_left_comm] using this)
      simp [hn, hrest.1, hrest.2]

/-- A row of the remote `STOCK_PRICE_HISTORY` table, with the columns
of `snowflakescripts.py` lines 156-169 (primary key `(TICKER, DATE)`). -/
structure SpPriceRow where
  TICKER : String
  DATE : Nat
  OPEN : Int
  HIGH : Int
  LOW : Int
  CLOSE : Int
  ADJ_CLOSE : Int
  VOLUME : Int
  DOWNLOAD_TIMESTAMP : Nat
deriving DecidableEq, Repr

/-- Merge key of the remote price table: `target.TICKER = source.TICKER
AND target.DATE = source.DATE` (snowflakescripts.py line 207). -/
def spPriceKey (r : SpPriceRow) : String × Nat := (r.TICKER, r.DATE)

/-- Merge key of the remote news table: `target.TICKER = source.TICKER
AND target.ID = source.ID` (snowflakescripts.py line 379,
enhanced_news_processor.py line 538). -/
def spNewsKey (r : NewsRow) : String × String := (r.TICKER, r.ID)

/-- The `WHEN MATCHED THEN UPDATE SET ...` clause of the price MERGE
(snowflakescripts.py lines 208-216): every non-key column of the target
row is replaced by the source row's value. -/
def updatePriceRowFromSource (t s : SpPriceRow) : SpPriceRow :=
  { t with OPEN := s.OPEN, HIGH := s.HIGH, LOW := s.LOW, CLOSE := s.CLOSE,
           ADJ_CLOSE := s.ADJ_CLOSE, VOLUME := s.VOLUME,
           DOWNLOAD_TIMESTAMP := s.DOWNLOAD_TIMESTAMP }

/-- The `WHEN MATCHED THEN UPDATE SET ...` clause of the news MERGE
(snowflakescripts.py lines 380-393): every non-key column of the target
row is replaced by the source row's value. -/
def updateNewsRowFromSource (t s : NewsRow) : NewsRow :=
  { t with TITLE := s.TITLE, SUMMARY := s.SUMMARY, DESCRIPTION := s.DESCRIPTION,
           PUBLISHER := s.PUBLISHER, LINK := s.LINK, PUBLISH_TIME := s.PUBLISH_TIME,
           DISPLAY_TIME := s.DISPLAY_TIME, CONTENT_TYPE := s.CONTENT_TYPE,
           THUMBNAIL_URL := s.THUMBNAIL_URL, IS_PREMIUM := s.IS_PREMIUM,
           IS_HOSTED := s.IS_HOSTED, DOWNLOAD_TIMESTAMP := s.DOWNLOAD_TIMESTAMP }

/-- The MERGE of `download_price_history_sp` (snowflakescripts.py
lines 204-223): each target row with a key match is updated from the
matching staged row; staged rows without a key match in the target are
inserted. -/
def merge_price_history (target source : List SpPriceRow) : List SpPriceRow :=
  target.map (fun t =>
    match source.find? (fun s => decide (spPriceKey s = spPriceKey t)) with
    | some s => updatePriceRowFromSource t s
    | none => t)
  ++ source.filter (fun s => ! target.any (fun t => decide (spPriceKey t = spPriceKey s)))

/-- The MERGE of `download_news_sp` (snowflakescripts.py lines 376-403):
update all non-key columns on match, insert on no match. -/
def merge_news (target source : List NewsRow) : List NewsRow :=
  target.map (fun t =>
    match source.find? (fun s => decide (spNewsKey s = spNewsKey t)) with
    | some s => updateNewsRowFromSource t s
    | none => t)
  ++ source.filter (fun s => ! target.any (fun t => decide (spNewsKey t = spNewsKey s)))

/-- The MERGE of `EnhancedNewsProcessor.merge_staging_to_main`
(enhanced_news_processor.py lines 535-548): it has only a
`WHEN NOT MATCHED THEN INSERT` branch, so target rows with a key match
are left unchanged and only unmatched staged rows are inserted. -/
def merge_staging_to_main_sql (target source : List NewsRow) : List NewsRow :=
  target ++ source.filter (fun s => ! target.any (fun t => decide (spNewsKey t = spNewsKey s)))

/-- Steps of one remote sync call, in the order the code issues them. -/
inductive SyncStep
  | schemaCheck
  | stageCreate
  | stageWrite
  | stageVerify
  | upsert
  | stageDrop
deriving DecidableEq, Repr

/-- The string returned by `download_price_history_sp`. -/
inductive SpMsg
  | noData
  | loadFailed
  | success (records_added : Int)
  | errorCaught
deriving DecidableEq, Repr

/-- Observable outcome of one `download_price_history_sp` call: the
returned message, the permanent table afterwards, whether the staging
table still exists, and the steps that ran. -/
structure SpRun where
  message : SpMsg
  main : List SpPriceRow
  stagingExists : Bool
  steps : List SyncStep
deriving DecidableEq, Repr

/-- `download_price_history_sp` (snowflakescripts.py lines 82-240) from
the point the batch is ready.  `writeSuccess` is the success flag
`write_pandas` returns; `staged` is what actually landed in the staging
table (empty on a silent write loss); `mergeRaises` models the MERGE
statement raising, which jumps to the `except` handler before the
staging table is dropped.  There is no read-back verification of the
staged row count: with `writeSuccess` true the procedure always
proceeds to the MERGE. -/
def download_price_history_sp_run (ticker : String) (main0 : List SpPriceRow)
    (batch : List SpPriceRow) (writeSuccess : Bool) (staged : List SpPriceRow)
    (mergeRaises : Bool) : SpRun :=
  if batch.isEmpty then ⟨.noData, main0, false, []⟩
  else
    let steps0 := [SyncStep.schemaCheck, SyncStep.stageCreate, SyncStep.stageWrite]
    if !writeSuccess then ⟨.loadFailed, main0, true, steps0⟩
    else if mergeRaises then ⟨.errorCaught, main0, true, steps0 ++ [SyncStep.upsert]⟩
    else
      let before := (main0.filter (fun r => decide (r.TICKER = ticker.toUpper))).length
      let main1 := merge_price_history main0 staged
      let after := (main1.filter (fun r => decide (r.TICKER = ticker.toUpper))).length
      ⟨.success ((after : Int) - (before : Int)), main1, false,
        steps0 ++ [SyncStep.upsert, SyncStep.stageDrop]⟩

/-- Observable outcome of the Snowflake portion of
`EnhancedNewsProcessor.process_ticker_news`. -/
structure NewsSyncRun where
  db_load_success : Bool
  records_inserted : Int
  main : List NewsRow
  stagingExists : Bool
  steps : List SyncStep
deriving DecidableEq, Repr

/-- The Snowflake portion of `process_ticker_news`
(enhanced_news_processor.py lines 616-639), with the main table's schema
assumed present and correct: `create_staging_table` drops and recreates
the session staging table; `load_data_to_staging` writes the batch
(`staged` is what actually landed) and reads back the staged row
count, returning `False` on zero (lines 485-499), which aborts before
the MERGE; `merge_staging_to_main` never drops the staging table, on
success or on error (lines 507-569). -/
def process_ticker_news_sync (main0 news_df staged : List NewsRow)
    (mergeRaises : Bool) : NewsSyncRun :=
  let steps0 := [SyncStep.schemaCheck, SyncStep.stageCreate, SyncStep.stageWrite,
    SyncStep.stageVerify]
  let runMerge := fun (staging : List NewsRow) =>
    if mergeRaises then
      NewsSyncRun.mk false 0 main0 true (steps0 ++ [SyncStep.upsert])
    else
      let before := main0.length
      let main1 := merge_staging_to_main_sql main0 staging
      NewsSyncRun.mk true ((main1.length : Int) - (before : Int)) main1 true
        (steps0 ++ [SyncStep.upsert])
  if news_df.isEmpty then
    runMerge []
  else if staged.isEmpty then
    ⟨false, 0, main0, true, steps0⟩
  else
    runMerge staged

/-- The return sites of `app.py` `get_price_history`: the planner skip
(lines 241-245), exhausted retries (lines 302-306) and an empty provider
response (lines 277-279) all return `None`; only a non-empty fetch
returns a data frame. -/
inductive PriceFetchOutcome
  | upToDateSkip
  | allAttemptsFailed
  | emptyFetch
  | fetched (rows : List PriceRow)
deriving DecidableEq, Repr

def get_price_history_result : PriceFetchOutcome → Option (List PriceRow)
  | .upToDateSkip => none
  | .allAttemptsFailed => none
  | .emptyFetch => none
  | .fetched rows => some rows

/-- The return sites of `app.py` `get_recent_news`: no news
(lines 329-331) and exhausted retries (lines 411-415) both return
`None`. -/
inductive NewsFetchOutcome
  | noNews
  | newsAllAttemptsFailed
  | fetchedNews (rows : List NewsRow)
deriving DecidableEq, Repr

def get_recent_news_result : NewsFetchOutcome → Option (List NewsRow)
  | .noNews => none
  | .newsAllAttemptsFailed => none
  | .fetchedNews rows => some rows

/-- The per-ticker result dictionary of `app.py` `process_ticker`
(lines 545-569). -/
structure TickerResult where
  price_history : Bool
  news : Bool
  price_records : Nat
  news_records : Nat
deriving DecidableEq, Repr

/-- `app.py` `process_ticker` (lines 519-569): counts and save flags are
set only when the fetch returned a non-empty frame; a `None` fetch of
either kind leaves the initial `False`/`0` entries. `priceSaveOk` and
`newsSaveOk` are the booleans `format_and_save_data` returns. -/
def process_ticker (price : PriceFetchOutcome) (include_news : Bool)
    (newsO : NewsFetchOutcome) (priceSaveOk newsSaveOk : Bool) : TickerResult :=
  let r0 : TickerResult := ⟨false, false, 0, 0⟩
  let r1 :=
    match get_price_history_result price with
    | some rows =>
      if rows.isEmpty then r0
      else { r0 with price_records := rows.length, price_history := priceSaveOk }
    | none => r0
  if include_news then
    match get_recent_news_result newsO with
    | some rows =>
      if rows.isEmpty then r1
      else { r1 with news_records := rows.length, news := newsSaveOk }
    | none => r1
  else r1

/-- A pre-2000 price row (DATE 9000 ≈ 1994) used as concrete input. -/
def priceRowA : PriceRow := ⟨"NVDA", 9000, 10, 12, 9, 11, 1000, 0, 0, 100⟩

/-- A second price row with a distinct date. -/
def priceRowB : PriceRow := ⟨"NVDA", 9005, 11, 13, 10, 12, 1100, 0, 0, 101⟩

/-- Same natural key as `priceRowDupB` but different close price. -/
def priceRowDupA : PriceRow := ⟨"NVDA", 9100, 10, 12, 9, 11, 1000, 0, 0, 100⟩

/-- Same natural key as `priceRowDupA` but different close price. -/
def priceRowDupB : PriceRow := ⟨"NVDA", 9100, 10, 12, 9, 99, 1000, 0, 0, 101⟩

/-- Concrete theorem statements below reuse these helper values. -/
theorem priceRowA_ne_nil : ([priceRowA] : List PriceRow) ≠ [] := List.cons_ne_nil _ _

/-- C1: for `get_price_history` with incremental mode on and no explicit
start date — no local dataset gives a full-history (default
`period="max"`) fetch; an existing minimum DATE at or after the
2000-01-01 cutoff gives a `period="max"` full fetch; otherwise the fetch
starts at the existing maximum DATE plus one day, and the call is
skipped (returns `None`) when that start is on or after today, else the
fetch runs from that start to now.  With incremental off or an explicit
start date the incremental rules are bypassed and the call arguments are
used directly. -/
theorem incremental_planner_rules (e : List PriceRow) (he : e ≠ [])
    (today : Nat) (p : String) :
    (get_price_history_plan true none none "max" none today =
      PricePlan.fetchPeriod "max") ∧
    (minDATE e ≥ cutoff2000 →
      get_price_history_plan true none none p (some e) today = PricePlan.fetchMaxPeriod) ∧
    (minDATE e < cutoff2000 → maxDATE e + 1 ≥ today →
      get_price_history_plan true none none p (some e) today = PricePlan.skip) ∧
    (minDATE e < cutoff2000 → maxDATE e + 1 < today →
      get_price_history_plan true none none p (some e) today =
        PricePlan.fetchStart (maxDATE e + 1)) ∧
    (∀ sd ed existing,
      get_price_history_plan false sd ed p existing today = historyCall false sd ed p) ∧
    (∀ s ed existing,
      get_price_history_plan true (some s) ed p existing today =
        historyCall false (some s) ed p) := by
  have he' : e.isEmpty = false := by
    cases e with
    | nil => exact absurd rfl he
    | cons a t => rfl
  refine ⟨rfl, ?_, ?_, ?_, ?_, ?_⟩
  · intro hmin
    simp [get_price_history_plan, historyCall, he', hmin]
  · intro hmin htoday
    simp [get_price_history_plan, historyCall, he', Nat.not_le.mpr hmin, htoday]
  · intro hmin htoday
    simp [get_price_history_plan, historyCall, he', Nat.not_le.mpr hmin,
      Nat.not_le.mpr htoday]
  · intro sd ed existing
    simp [get_price_history_plan]
  · intro s ed existing
    simp [get_price_history_plan]

/-- Witness for C1: a dataset of one pre-2000 row with maximum DATE 9000
and today 9002 yields an incremental fetch starting at day 9001. -/
theorem incremental_planner_rules_witness :
    (([priceRowA] : List PriceRow) ≠ [] ∧ minDATE [priceRowA] < cutoff2000 ∧
      maxDATE [priceRowA] + 1 < 9002) ∧
    get_price_history_plan true none none "max" (some [priceRowA]) 9002 =
      PricePlan.fetchStart (maxDATE [priceRowA] + 1) :=
  ⟨⟨priceRowA_ne_nil, by decide, by decide⟩,
    (incremental_planner_rules [priceRowA] priceRowA_ne_nil 9002 "max").2.2.2.1
      (by decide) (by decide)⟩

theorem lastOccurrence_appCombined {ρ κ : Type} [DecidableEq κ] (key : ρ → κ)
    (existing : Option (List ρ)) (df : List ρ) (b0 : ρ) (hb : b0 ∈ df) :
    lastOccurrence key (key b0) (appCombined existing df) =
      lastOccurrence key (key b0) df := by
  cases existing with
  | none => rfl
  | some e =>
    by_cases hE : e.isEmpty = true
    · simp [appCombined, hE]
    · simp only [appCombined, hE, if_false]
      exact lastOccurrence_append_of_mem key e df b0 hb rfl

/-- C2 counterexample: `stock_downloader.py` `format_and_save_data` with
no existing dataset persists the batch verbatim (line 247), so a batch
carrying the same `(TICKER, DATE)` key twice is persisted with that key
twice — the persisted dataset does not contain each natural key exactly
once. -/
theorem first_save_keeps_duplicate_keys_sd :
    (format_and_save_data_sd_price none (some [priceRowDupA, priceRowDupB]) "p").written =
      some [priceRowDupA, priceRowDupB] ∧
    priceKey priceRowDupA = priceKey priceRowDupB ∧
    priceRowDupA ≠ priceRowDupB ∧
    ¬ (([priceRowDupA, priceRowDupB].map priceKey).Nodup) := by
  refine ⟨rfl, rfl, by decide, by decide⟩

/-- C2 as amended: `app.py` `format_and_save_data` always persists each
key exactly once, keeping exactly the last occurrence of each key in
`existing ++ batch` (so batch records win every collision with existing
ones); `stock_downloader.py` `format_and_save_data` guarantees the same
only when an existing non-empty dataset is present — with no existing
dataset it persists the batch verbatim. -/
theorem merge_dedup_last_write_wins :
    (∀ (existing : Option (List PriceRow)) (df : List PriceRow),
      ((format_and_save_data_app_price existing df).map priceKey).Nodup ∧
      (∀ x, x ∈ format_and_save_data_app_price existing df ↔
        lastOccurrence priceKey (priceKey x) (appCombined existing df) = some x) ∧
      (∀ b0 ∈ df, lastOccurrence priceKey (priceKey b0) (appCombined existing df) =
        lastOccurrence priceKey (priceKey b0) df)) ∧
    (∀ (existing : Option (List NewsRow)) (df : List NewsRow),
      ((format_and_save_data_app_news existing df).map newsIdKey).Nodup ∧
      (∀ x, x ∈ format_and_save_data_app_news existing df ↔
        lastOccurrence newsIdKey (newsIdKey x) (appCombined existing df) = some x) ∧
      (∀ b0 ∈ df, lastOccurrence newsIdKey (newsIdKey b0) (appCombined existing df) =
        lastOccurrence newsIdKey (newsIdKey b0) df)) ∧
    (∀ (e d : List PriceRow) (fp : String), e ≠ [] → d ≠ [] →
      ∀ rows, (format_and_save_data_sd_price (some e) (some d) fp).written = some rows →
        (rows.map priceKey).Nodup ∧
        (∀ x, x ∈ rows ↔ lastOccurrence priceKey (priceKey x) (e ++ d) = some x) ∧
        (∀ b0 ∈ d, lastOccurrence priceKey (priceKey b0) (e ++ d) =
          lastOccurrence priceKey (priceKey b0) d)) ∧
    (∀ (e d : List NewsRow) (fp : String), e ≠ [] → d ≠ [] →
      ∀ rows, (format_and_save_data_sd_news (some e) (some d) fp).written = some rows →
        (rows.map newsTickerIdKey).Nodup ∧
        (∀ x, x ∈ rows ↔ lastOccurrence newsTickerIdKey (newsTickerIdKey x) (e ++ d) = some x) ∧
        (∀ b0 ∈ d, lastOccurrence newsTickerIdKey (newsTickerIdKey b0) (e ++ d) =
          lastOccurrence newsTickerIdKey (newsTickerIdKey b0) d)) := by
  refine ⟨?_, ?_, ?_, ?_⟩
  · intro existing df
    obtain ⟨h1, h2⟩ := mergeSort_dropDuplicates_spec priceKey
      (fun a b => decide (a.DATE ≤ b.DATE)) (appCombined existing df)
    exact ⟨h1, h2, fun b0 hb => lastOccurrence_appCombined priceKey existing df b0 hb⟩
  · intro existing df
    obtain ⟨h1, h2⟩ := mergeSort_dropDuplicates_spec newsIdKey
      (fun a b => decide (b.PUBLISH_TIME ≤ a.PUBLISH_TIME)) (appCombined existing df)
    exact ⟨h1, h2, fun b0 hb => lastOccurrence_appCombined newsIdKey existing df b0 hb⟩
  · intro e d fp he hd rows hw
    have he' : e.isEmpty = false := by cases e with
      | nil => exact absurd rfl he
      | cons a t => rfl
    have hd' : d.isEmpty = false := by cases d with
      | nil => exact absurd rfl hd
      | cons a t => rfl
    simp only [format_and_save_data_sd_price, hd', Bool.false_eq_true, if_false, he',
      Option.some.injEq] at hw
    obtain ⟨h1, h2⟩ := mergeSort_dropDuplicates_spec priceKey
      (fun a b => decide (a.DATE ≤ b.DATE)) (e ++ d)
    subst hw
    exact ⟨h1, h2, fun b0 hb => lastOccurrence_append_of_mem priceKey e d b0 hb rfl⟩
  · intro e d fp he hd rows hw
    have he' : e.isEmpty = false := by cases e with
      | nil => exact absurd rfl he
      | cons a t => rfl
    have hd' : d.isEmpty = false := by cases d with
      | nil => exact absurd rfl hd
      | cons a t => rfl
    simp only [format_and_save_data_sd_news, hd', Bool.false_eq_true, if_false, he',
      Option.some.injEq] at hw
    obtain ⟨h1, h2⟩ := mergeSort_dropDuplicates_spec newsTickerIdKey
      (fun a b => decide (b.PUBLISH_TIME ≤ a.PUBLISH_TIME)) (e ++ d)
    subst hw
    exact ⟨h1, h2, fun b0 hb => lastOccurrence_append_of_mem newsTickerIdKey e d b0 hb rfl⟩

/-- Witness for C2's amended theorem: merging batch `[priceRowB]` into
existing `[priceRowA]` in `stock_downloader.py` persists a dataset whose
keys are pairwise distinct. -/
theorem merge_dedup_last_write_wins_witness :
    (([priceRowA] : List PriceRow) ≠ [] ∧ ([priceRowB] : List PriceRow) ≠ [] ∧
      (format_and_save_data_sd_price (some [priceRowA]) (some [priceRowB]) "p").written =
        some (sortByDateAsc (dropDuplicatesKeepLast priceKey ([priceRowA] ++ [priceRowB])))) ∧
    ((sortByDateAsc (dropDuplicatesKeepLast priceKey
        ([priceRowA] ++ [priceRowB]))).map priceKey).Nodup :=
  ⟨⟨priceRowA_ne_nil, List.cons_ne_nil _ _, rfl⟩,
    (merge_dedup_last_write_wins.2.2.1 [priceRowA] [priceRowB] "p" priceRowA_ne_nil
      (List.cons_ne_nil _ _) _ rfl).1⟩

theorem pairwise_sortByDateAsc (l : List PriceRow) :
    List.Pairwise (fun a b : PriceRow => a.DATE ≤ b.DATE) (sortByDateAsc l) := by
  have h := @List.sorted_mergeSort PriceRow
    (fun a b : PriceRow => decide (a.DATE ≤ b.DATE))
    (fun a b c hab hbc => by
      simp only [decide_eq_true_eq] at *
      omega)
    (fun a b => by
      simp only [Bool.or_eq_true, decide_eq_true_eq]
      exact Nat.le_total a.DATE b.DATE)
    l
  exact h.imp (fun hab => of_decide_eq_true hab)

theorem pairwise_sortByPublishTimeDesc (l : List NewsRow) :
    List.Pairwise (fun a b : NewsRow => b.PUBLISH_TIME ≤ a.PUBLISH_TIME)
      (sortByPublishTimeDesc l) := by
  have h := @List.sorted_mergeSort NewsRow
    (fun a b : NewsRow => decide (b.PUBLISH_TIME ≤ a.PUBLISH_TIME))
    (fun a b c hab hbc => by
      simp only [decide_eq_true_eq] at *
      omega)
    (fun a b => by
      simp only [Bool.or_eq_true, decide_eq_true_eq]
      exact Nat.le_total b.PUBLISH_TIME a.PUBLISH_TIME)
    l
  exact h.imp (fun hab => of_decide_eq_true hab)

/-- C3 counterexample: on the very first save (no prior dataset)
`stock_downloader.py` `format_and_save_data` writes the batch as-is
(line 247), so an out-of-order batch is persisted out of order — the
persisted price dataset is not non-decreasing by DATE. -/
theorem first_save_unsorted_sd :
    (format_and_save_data_sd_price none (some [priceRowB, priceRowA]) "p").written =
      some [priceRowB, priceRowA] ∧
    ¬ List.Pairwise (fun a b : PriceRow => a.DATE ≤ b.DATE) [priceRowB, priceRowA] := by
  refine ⟨rfl, ?_⟩
  intro h
  have := List.rel_of_pairwise_cons h (List.mem_cons_self _ _)
  simp [priceRowA, priceRowB] at this

/-- C3 as amended: every successful `app.py` `format_and_save_data`
leaves the persisted price dataset non-decreasing by DATE and the
persisted news dataset non-increasing by PUBLISH_TIME, including the
first save; `stock_downloader.py` guarantees this only when merging with
an existing non-empty dataset — its first save persists the batch in
fetch order. -/
theorem persisted_ordering_invariants :
    (∀ (existing : Option (List PriceRow)) (df : List PriceRow),
      List.Pairwise (fun a b : PriceRow => a.DATE ≤ b.DATE)
        (format_and_save_data_app_price existing df)) ∧
    (∀ (existing : Option (List NewsRow)) (df : List NewsRow),
      List.Pairwise (fun a b : NewsRow => b.PUBLISH_TIME ≤ a.PUBLISH_TIME)
        (format_and_save_data_app_news existing df)) ∧
    (∀ (e d : List PriceRow) (fp : String), e ≠ [] → d ≠ [] →
      ∀ rows, (format_and_save_data_sd_price (some e) (some d) fp).written = some rows →
        List.Pairwise (fun a b : PriceRow => a.DATE ≤ b.DATE) rows) ∧
    (∀ (e d : List NewsRow) (fp : String), e ≠ [] → d ≠ [] →
      ∀ rows, (format_and_save_data_sd_news (some e) (some d) fp).written = some rows →
        List.Pairwise (fun a b : NewsRow => b.PUBLISH_TIME ≤ a.PUBLISH_TIME) rows) := by
  refine ⟨?_, ?_, ?_, ?_⟩
  · intro existing df
    exact pairwise_sortByDateAsc _
  · intro existing df
    exact pairwise_sortByPublishTimeDesc _
  · intro e d fp he hd rows hw
    have he' : e.isEmpty = false := by cases e with
      | nil => exact absurd rfl he
      | cons a t => rfl
    have hd' : d.isEmpty = false := by cases d with
      | nil => exact absurd rfl hd
      | cons a t => rfl
    simp only [format_and_save_data_sd_price, hd', Bool.false_eq_true, if_false, he',
      Option.some.injEq] at hw
    subst hw
    exact pairwise_sortByDateAsc _
  · intro e d fp he hd rows hw
    have he' : e.isEmpty = false := by cases e with
      | nil => exact absurd rfl he
      | cons a t => rfl
    have hd' : d.isEmpty = false := by cases d with
      | nil => exact absurd rfl hd
      | cons a t => rfl
    simp only [format_and_save_data_sd_news, hd', Bool.false_eq_true, if_false, he',
      Option.some.injEq] at hw
    subst hw
    exact pairwise_sortByPublishTimeDesc _

/-- Witness for C3's amended theorem: the merge of `[priceRowB]` into
existing `[priceRowA]` in `stock_downloader.py` persists a dataset
non-decreasing by DATE. -/
theorem persisted_ordering_invariants_witness :
    (([priceRowA] : List PriceRow) ≠ [] ∧ ([priceRowB] : List PriceRow) ≠ [] ∧
      (format_and_save_data_sd_price (some [priceRowA]) (some [priceRowB]) "p").written =
        some (sortByDateAsc (dropDuplicatesKeepLast priceKey ([priceRowA] ++ [priceRowB])))) ∧
    List.Pairwise (fun a b : PriceRow => a.DATE ≤ b.DATE)
      (sortByDateAsc (dropDuplicatesKeepLast priceKey ([priceRowA] ++ [priceRowB]))) :=
  ⟨⟨priceRowA_ne_nil, List.cons_ne_nil _ _, rfl⟩,
    persisted_ordering_invariants.2.2.1 [priceRowA] [priceRowB] "p" priceRowA_ne_nil
      (List.cons_ne_nil _ _) _ rfl⟩

/-- A remote price row. -/
def spRowOld : SpPriceRow := ⟨"NVDA", 9000, 1, 2, 3, 4, 5, 100, 10⟩

/-- A staged remote price row with the same `(TICKER, DATE)` key as
`spRowOld` but different non-key values. -/
def spRowNew : SpPriceRow := ⟨"NVDA", 9000, 6, 7, 8, 9, 10, 200, 20⟩

/-- An existing remote news row. -/
def newsRowOld : NewsRow :=
  ⟨"NVDA", "id1", "old title", "s", "d", "pub", "l", 500, 500, "STORY", "", false, false, 100⟩

/-- A staged news row with the same `(TICKER, ID)` key as `newsRowOld`
but a different title. -/
def newsRowNew : NewsRow :=
  ⟨"NVDA", "id1", "new title", "s2", "d2", "pub2", "l2", 600, 600, "STORY", "", false, false, 200⟩

/-- C4 counterexample: `EnhancedNewsProcessor.merge_staging_to_main` has
no `WHEN MATCHED ... UPDATE` branch; on a key match the existing remote
row keeps its stale non-key columns instead of being updated from the
staged row. -/
theorem insert_only_merge_keeps_stale_row :
    merge_staging_to_main_sql [newsRowOld] [newsRowNew] = [newsRowOld] ∧
    spNewsKey newsRowOld = spNewsKey newsRowNew ∧
    newsRowOld.TITLE ≠ newsRowNew.TITLE := by
  refine ⟨by decide, rfl, by decide⟩

/-- C4 as amended: the MERGE statements of the two `snowflakescripts.py`
stored procedures update all non-key columns of a matched remote row
from the staged row and insert staged rows with no key match;
`EnhancedNewsProcessor.merge_staging_to_main` instead leaves matched
remote rows unchanged and only inserts staged rows with no key match. -/
theorem remote_upsert_semantics :
    (∀ (target source : List SpPriceRow) (t s : SpPriceRow), t ∈ target →
      source.find? (fun c => decide (spPriceKey c = spPriceKey t)) = some s →
      ∃ r ∈ merge_price_history target source,
        r.TICKER = t.TICKER ∧ r.DATE = t.DATE ∧ r.OPEN = s.OPEN ∧ r.HIGH = s.HIGH ∧
        r.LOW = s.LOW ∧ r.CLOSE = s.CLOSE ∧ r.ADJ_CLOSE = s.ADJ_CLOSE ∧
        r.VOLUME = s.VOLUME ∧ r.DOWNLOAD_TIMESTAMP = s.DOWNLOAD_TIMESTAMP) ∧
    (∀ (target source : List SpPriceRow) (s : SpPriceRow), s ∈ source →
      (∀ t ∈ target, spPriceKey t ≠ spPriceKey s) →
      s ∈ merge_price_history target source) ∧
    (∀ (target source : List NewsRow) (t s : NewsRow), t ∈ target →
      source.find? (fun c => decide (spNewsKey c = spNewsKey t)) = some s →
      ∃ r ∈ merge_news target source,
        r.TICKER = t.TICKER ∧ r.ID = t.ID ∧ r.TITLE = s.TITLE ∧ r.SUMMARY = s.SUMMARY ∧
        r.DESCRIPTION = s.DESCRIPTION ∧ r.PUBLISHER = s.PUBLISHER ∧ r.LINK = s.LINK ∧
        r.PUBLISH_TIME = s.PUBLISH_TIME ∧ r.DISPLAY_TIME = s.DISPLAY_TIME ∧
        r.CONTENT_TYPE = s.CONTENT_TYPE ∧ r.THUMBNAIL_URL = s.THUMBNAIL_URL ∧
        r.IS_PREMIUM = s.IS_PREMIUM ∧ r.IS_HOSTED = s.IS_HOSTED ∧
        r.DOWNLOAD_TIMESTAMP = s.DOWNLOAD_TIMESTAMP) ∧
    (∀ (target source : List NewsRow) (s : NewsRow), s ∈ source →
      (∀ t ∈ target, spNewsKey t ≠ spNewsKey s) → s ∈ merge_news target source) ∧
    (∀ (target source : List NewsRow) (t : NewsRow), t ∈ target →
      t ∈ merge_staging_to_main_sql target source) ∧
    (∀ (target source : List NewsRow) (s : NewsRow), s ∈ source →
      (∀ t ∈ target, spNewsKey t ≠ spNewsKey s) →
      s ∈ merge_staging_to_main_sql target source) := by
  refine ⟨?_, ?_, ?_, ?_, ?_, ?_⟩
  · intro target source t s ht hfind
    refine ⟨updatePriceRowFromSource t s, ?_, ?_⟩
    · exact List.mem_append_left _ (List.mem_map.mpr ⟨t, ht, by rw [hfind]⟩)
    · simp [updatePriceRowFromSource]
  · intro target source s hs hno
    refine List.mem_append_right _ (List.mem_filter.mpr ⟨hs, ?_⟩)
    rw [Bool.not_eq_true', List.any_eq_false]
    intro t ht
    simpa using hno t ht
  · intro target source t s ht hfind
    refine ⟨updateNewsRowFromSource t s, ?_, ?_⟩
    · exact List.mem_append_left _ (List.mem_map.mpr ⟨t, ht, by rw [hfind]⟩)
    · simp [updateNewsRowFromSource]
  · intro target source s hs hno
    refine List.mem_append_right _ (List.mem_filter.mpr ⟨hs, ?_⟩)
    rw [Bool.not_eq_true', List.any_eq_false]
    intro t ht
    simpa using hno t ht
  · intro target source t ht
    exact List.mem_append_left _ ht
  · intro target source s hs hno
    refine List.mem_append_right _ (List.mem_filter.mpr ⟨hs, ?_⟩)
    rw [Bool.not_eq_true', List.any_eq_false]
    intro t ht
    simpa using hno t ht

/-- Witness for C4's amended theorem: merging staged row `spRowNew` over
matching remote row `spRowOld` yields a row with `spRowOld`'s key and
`spRowNew`'s non-key values. -/
theorem remote_upsert_semantics_witness :
    (spRowOld ∈ ([spRowOld] : List SpPriceRow) ∧
      ([spRowNew] : List SpPriceRow).find?
        (fun c => decide (spPriceKey c = spPriceKey spRowOld)) = some spRowNew) ∧
    ∃ r ∈ merge_price_history [spRowOld] [spRowNew],
      r.TICKER = spRowOld.TICKER ∧ r.DATE = spRowOld.DATE ∧ r.OPEN = spRowNew.OPEN ∧
      r.HIGH = spRowNew.HIGH ∧ r.LOW = spRowNew.LOW ∧ r.CLOSE = spRowNew.CLOSE ∧
      r.ADJ_CLOSE = spRowNew.ADJ_CLOSE ∧ r.VOLUME = spRowNew.VOLUME ∧
      r.DOWNLOAD_TIMESTAMP = spRowNew.DOWNLOAD_TIMESTAMP :=
  ⟨⟨List.mem_cons_self _ _, by decide⟩,
    remote_upsert_semantics.1 [spRowOld] [spRowNew] spRowOld spRowNew
      (List.mem_cons_self _ _) (by decide)⟩

theorem merge_price_history_nil (main0 : List SpPriceRow) :
    merge_price_history main0 [] = main0 := by
  simp [merge_price_history]

/-- C5 counterexample: `download_price_history_sp` never reads back the
staged row count; with a non-empty batch whose staging write silently
stored zero rows (and `write_pandas` reporting success) the procedure
still runs the MERGE and returns a success message instead of failing
before the Upsert step. -/
theorem sp_proceeds_to_upsert_on_zero_staged :
    ([spRowNew] : List SpPriceRow) ≠ [] ∧
    (download_price_history_sp_run "NVDA" [] [spRowNew] true [] false).message =
      SpMsg.success 0 ∧
    SyncStep.upsert ∈ (download_price_history_sp_run "NVDA" [] [spRowNew] true [] false).steps := by
  refine ⟨List.cons_ne_nil _ _, by decide, by decide⟩

/-- C5 as amended: `EnhancedNewsProcessor.load_data_to_staging` verifies
the staged row count and, for a non-empty batch staged as zero rows,
fails before the MERGE with the permanent table unchanged; the
`snowflakescripts.py` stored procedures perform no such verification —
they proceed to the MERGE (which, with an empty staging table, adds
nothing) and report success, so in both code paths the permanent table
is unchanged but only the enhanced processor's call fails. -/
theorem stage_verify_guard :
    (∀ (main0 news_df staged : List NewsRow) (mr : Bool), news_df ≠ [] → staged = [] →
      (process_ticker_news_sync main0 news_df staged mr).db_load_success = false ∧
      (process_ticker_news_sync main0 news_df staged mr).main = main0 ∧
      SyncStep.upsert ∉ (process_ticker_news_sync main0 news_df staged mr).steps) ∧
    (∀ (ticker : String) (main0 batch : List SpPriceRow), batch ≠ [] →
      (download_price_history_sp_run ticker main0 batch true [] false).main = main0 ∧
      (download_price_history_sp_run ticker main0 batch true [] false).message =
        SpMsg.success 0 ∧
      SyncStep.upsert ∈ (download_price_history_sp_run ticker main0 batch true [] false).steps) := by
  constructor
  · intro main0 news_df staged mr hdf hst
    subst hst
    have hdf' : news_df.isEmpty = false := by cases news_df with
      | nil => exact absurd rfl hdf
      | cons a t => rfl
    refine ⟨?_, ?_, ?_⟩ <;> simp [process_ticker_news_sync, hdf']
  · intro ticker main0 batch hb
    have hb' : batch.isEmpty = false := by cases batch with
      | nil => exact absurd rfl hb
      | cons a t => rfl
    refine ⟨?_, ?_, ?_⟩ <;>
      simp [download_price_history_sp_run, hb', merge_price_history_nil]

/-- Witness for C5's amended theorem: a one-row batch staged as zero
rows makes the enhanced processor's sync fail before the merge, leaving
the (empty) main table unchanged. -/
theorem stage_verify_guard_witness :
    (([newsRowNew] : List NewsRow) ≠ [] ∧ ([] : List NewsRow) = []) ∧
    (process_ticker_news_sync [] [newsRowNew] [] false).db_load_success = false ∧
    (process_ticker_news_sync [] [newsRowNew] [] false).main = [] ∧
    SyncStep.upsert ∉ (process_ticker_news_sync [] [newsRowNew] [] false).steps :=
  ⟨⟨List.cons_ne_nil _ _, rfl⟩,
    stage_verify_guard.1 [] [newsRowNew] [] false (List.cons_ne_nil _ _) rfl⟩

/-- C6 counterexample: when the MERGE of `download_price_history_sp`
raises, control jumps to the `except` handler and the
`DROP TABLE IF EXISTS` on line 233 never runs — the staging relation
created by the call still exists afterwards. -/
theorem staging_survives_failed_merge :
    (download_price_history_sp_run "NVDA" [] [spRowNew] true [spRowNew] true).stagingExists =
      true ∧
    SyncStep.stageDrop ∉
      (download_price_history_sp_run "NVDA" [] [spRowNew] true [spRowNew] true).steps := by
  refine ⟨by decide, by decide⟩

/-- C6 as amended: `download_price_history_sp` drops its staging table
only on the fully successful path; when the staging write fails or the
MERGE raises, the call returns with the staging table still in place.
`EnhancedNewsProcessor` never drops the staging table after the merge at
all (it is dropped and recreated at the start of the next call), so a
sync call always leaves the staging relation in existence. -/
theorem staging_drop_behavior :
    (∀ (ticker : String) (main0 batch staged : List SpPriceRow), batch ≠ [] →
      (download_price_history_sp_run ticker main0 batch true staged false).stagingExists =
        false ∧
      SyncStep.stageDrop ∈
        (download_price_history_sp_run ticker main0 batch true staged false).steps) ∧
    (∀ (ticker : String) (main0 batch staged : List SpPriceRow), batch ≠ [] →
      (download_price_history_sp_run ticker main0 batch true staged true).stagingExists =
        true ∧
      SyncStep.stageDrop ∉
        (download_price_history_sp_run ticker main0 batch true staged true).steps) ∧
    (∀ (ticker : String) (main0 batch staged : List SpPriceRow) (mr : Bool), batch ≠ [] →
      (download_price_history_sp_run ticker main0 batch false staged mr).stagingExists =
        true ∧
      SyncStep.stageDrop ∉
        (download_price_history_sp_run ticker main0 batch false staged mr).steps) ∧
    (∀ (main0 news_df staged : List NewsRow) (mr : Bool),
      (process_ticker_news_sync main0 news_df staged mr).stagingExists = true ∧
      SyncStep.stageDrop ∉ (process_ticker_news_sync main0 news_df staged mr).steps) := by
  refine ⟨?_, ?_, ?_, ?_⟩
  · intro ticker main0 batch staged hb
    have hb' : batch.isEmpty = false := by cases batch with
      | nil => exact absurd rfl hb
      | cons a t => rfl
    refine ⟨?_, ?_⟩ <;> simp [download_price_history_sp_run, hb']
  · intro ticker main0 batch staged hb
    have hb' : batch.isEmpty = false := by cases batch with
      | nil => exact absurd rfl hb
      | cons a t => rfl
    refine ⟨?_, ?_⟩ <;> simp [download_price_history_sp_run, hb']
  · intro ticker main0 batch staged mr hb
    have hb' : batch.isEmpty = false := by cases batch with
      | nil => exact absurd rfl hb
      | cons a t => rfl
    refine ⟨?_, ?_⟩ <;> simp [download_price_history_sp_run, hb']
  · intro main0 news_df staged mr
    by_cases h1 : news_df.isEmpty = true <;> by_cases h2 : staged.isEmpty = true <;>
      cases mr <;> refine ⟨?_, ?_⟩ <;> simp [process_ticker_news_sync, h1, h2]

/-- Witness for C6's amended theorem: on a fully successful call the
price stored procedure does drop its staging table. -/
theorem staging_drop_behavior_witness :
    ([spRowNew] : List SpPriceRow) ≠ [] ∧
    (download_price_history_sp_run "NVDA" [] [spRowNew] true [spRowNew] false).stagingExists =
      false ∧
    SyncStep.stageDrop ∈
      (download_price_history_sp_run "NVDA" [] [spRowNew] true [spRowNew] false).steps :=
  ⟨List.cons_ne_nil _ _,
    staging_drop_behavior.1 "NVDA" [] [spRowNew] [spRowNew] (List.cons_ne_nil _ _)⟩

/-- The replacement mechanism the specification describes for the local
save step, stated over the file-operation trace: the new content is
written to a temporary location distinct from the dataset path, that
temporary file is renamed onto the dataset path, and the dataset path is
never the direct target of a write. -/
def specAtomicTempSwap (ops : List FsOp) (dataset : String) : Prop :=
  (∃ tmp, tmp ≠ dataset ∧ FsOp.writeParquet tmp ∈ ops ∧
    FsOp.renameFile tmp dataset ∈ ops) ∧
  FsOp.writeParquet dataset ∉ ops

/-- C7 counterexample: `app.py` `format_and_save_data` writes the merged
dataset with a single `to_parquet` directly onto the dataset path
(line 506) — its file-operation trace is not a write-to-temporary-then-
swap replacement. -/
theorem save_is_not_temp_swap :
    ¬ specAtomicTempSwap
        (format_and_save_data_app_ops []
          "./data/price-history/NVDA/price-history-NVDA.parquet")
        "./data/price-history/NVDA/price-history-NVDA.parquet" := by
  intro h
  exact h.2 (by simp [format_and_save_data_app_ops])

/-- C7 as amended: both `format_and_save_data` implementations write the
merged content directly onto the dataset's final path in a single
`to_parquet` call (`app.py` first deletes old timestamped files); no
temporary file is written and no rename is performed, so the replacement
is not performed via a temporary-location swap. -/
theorem save_writes_directly :
    (∀ (oldFiles : List String) (fp : String),
      FsOp.writeParquet fp ∈ format_and_save_data_app_ops oldFiles fp ∧
      (∀ s d, FsOp.renameFile s d ∉ format_and_save_data_app_ops oldFiles fp) ∧
      (∀ q, FsOp.writeParquet q ∈ format_and_save_data_app_ops oldFiles fp → q = fp)) ∧
    (∀ (existing : Option (List PriceRow)) (df : Option (List PriceRow)) (fp : String),
      (format_and_save_data_sd_price existing df fp).ops = [] ∨
      (format_and_save_data_sd_price existing df fp).ops = [FsOp.writeParquet fp]) ∧
    (∀ (existing : Option (List NewsRow)) (df : Option (List NewsRow)) (fp : String),
      (format_and_save_data_sd_news existing df fp).ops = [] ∨
      (format_and_save_data_sd_news existing df fp).ops = [FsOp.writeParquet fp]) := by
  refine ⟨?_, ?_, ?_⟩
  · intro oldFiles fp
    refine ⟨by simp [format_and_save_data_app_ops], ?_, ?_⟩
    · intro s d
      simp [format_and_save_data_app_ops]
    · intro q hq
      simp only [format_and_save_data_app_ops, List.mem_append, List.mem_map,
        List.mem_singleton] at hq
      rcases hq with ⟨a, _, h⟩ | h
      · exact absurd h (by simp)
      · exact (FsOp.writeParquet.injEq q fp).mp h
  · intro existing df fp
    cases df with
    | none => exact Or.inl rfl
    | some d =>
      by_cases hd : d.isEmpty = true
      · exact Or.inl (by simp [format_and_save_data_sd_price, hd])
      · exact Or.inr (by simp [format_and_save_data_sd_price, hd])
  · intro existing df fp
    cases df with
    | none => exact Or.inl rfl
    | some d =>
      by_cases hd : d.isEmpty = true
      · exact Or.inl (by simp [format_and_save_data_sd_news, hd])
      · exact Or.inr (by simp [format_and_save_data_sd_news, hd])

/-- Witness for C7's amended theorem: in a concrete save trace the only
written path is the dataset path itself. -/
theorem save_writes_directly_witness :
    FsOp.writeParquet "p" ∈ format_and_save_data_app_ops ["old1"] "p" ∧ "p" = "p" :=
  ⟨by simp [format_and_save_data_app_ops],
    (save_writes_directly.1 ["old1"] "p").2.2 "p"
      (by simp [format_and_save_data_app_ops])⟩

/-- C8: the retry loop shared by the fetch wrappers makes at most
`retry_attempts` attempts; the sleep after the failed attempt with
zero-based index `i` is `retry_delay * 2 ^ i` (the sleeps of a run are
exactly that formula over the non-final attempts, all of which failed);
and when every attempt fails the wrapper returns `None` instead of
raising. -/
theorem retry_backoff_contract {α : Type} (retry_attempts : Nat) (retry_delay : ℚ)
    (outcome : Nat → Option α) :
    (retryLoop retry_attempts retry_delay outcome).attemptsMade ≤ retry_attempts ∧
    (retryLoop retry_attempts retry_delay outcome).sleeps =
      (List.range ((retryLoop retry_attempts retry_delay outcome).attemptsMade - 1)).map
        (fun i => retry_delay * 2 ^ i) ∧
    ((∀ j, j < retry_attempts → outcome j = none) →
      (retryLoop retry_attempts retry_delay outcome).result = none ∧
      (retryLoop retry_attempts retry_delay outcome).attemptsMade = retry_attempts) := by
  refine ⟨retryLoopFrom_attemptsMade_le retry_delay outcome retry_attempts 0, ?_, ?_⟩
  · have h := retryLoopFrom_sleeps retry_delay outcome retry_attempts 0
    simpa [retryLoop] using h
  · intro hfail
    exact retryLoopFrom_all_fail retry_delay outcome retry_attempts 0
      (fun j hj => by simpa using hfail j hj)

/-- Witness for C8: three attempts that all raise yield `None` after
exactly three attempts. -/
theorem retry_backoff_contract_witness :
    (∀ j, j < 3 → (fun _ : Nat => (none : Option (List PriceRow))) j = none) ∧
    (retryLoop 3 2 (fun _ : Nat => (none : Option (List PriceRow)))).result = none ∧
    (retryLoop 3 2 (fun _ : Nat => (none : Option (List PriceRow)))).attemptsMade = 3 :=
  ⟨fun _ _ => rfl,
    (retry_backoff_contract 3 2 (fun _ => none)).2.2 (fun _ _ => rfl)⟩

/-- C9 counterexample: `app.py` `process_ticker` produces the identical
result dictionary for a run whose planner skipped the fetch because the
dataset is up to date (success with zero new records) and for a run in
which every fetch attempt failed — both give
`{price_history: False, price_records: 0}`, so the per-ticker result
does not distinguish them. -/
theorem skip_vs_failure_same_result :
    process_ticker PriceFetchOutcome.upToDateSkip false NewsFetchOutcome.noNews true true =
      process_ticker PriceFetchOutcome.allAttemptsFailed false NewsFetchOutcome.noNews
        true true ∧
    (process_ticker PriceFetchOutcome.upToDateSkip false NewsFetchOutcome.noNews true
      true).price_history = false ∧
    (process_ticker PriceFetchOutcome.upToDateSkip false NewsFetchOutcome.noNews true
      true).price_records = 0 := by
  refine ⟨rfl, rfl, rfl⟩

/-- C9 as amended: the per-ticker result of `app.py` `process_ticker`
does not distinguish "succeeded with zero new records" from "failed":
`get_price_history` returns `None` both for the planner's up-to-date
skip and for exhausted retries, and `process_ticker` maps any `None`
fetch to the same `False`/`0` entries, for every combination of the
remaining inputs. -/
theorem skip_indistinguishable_from_failure :
    ∀ (include_news : Bool) (newsO : NewsFetchOutcome) (priceSaveOk newsSaveOk : Bool),
      process_ticker PriceFetchOutcome.upToDateSkip include_news newsO
        priceSaveOk newsSaveOk =
      process_ticker PriceFetchOutcome.allAttemptsFailed include_news newsO
        priceSaveOk newsSaveOk ∧
      get_price_history_result PriceFetchOutcome.upToDateSkip =
        get_price_history_result PriceFetchOutcome.allAttemptsFailed := by
  intro include_news newsO priceSaveOk newsSaveOk
  exact ⟨rfl, rfl⟩

/-- C10: `stock_downloader.py` `format_and_save_data` called with
`df=None` or an empty data frame returns `False` and performs no file
operation, leaving any persisted dataset untouched. -/
theorem sd_save_rejects_empty_input :
    ∀ (existingP : Option (List PriceRow)) (existingN : Option (List NewsRow))
      (fp : String),
      format_and_save_data_sd_price existingP none fp = ⟨false, none, []⟩ ∧
      format_and_save_data_sd_price existingP (some []) fp = ⟨false, none, []⟩ ∧
      format_and_save_data_sd_news existingN none fp = ⟨false, none, []⟩ ∧
      format_and_save_data_sd_news existingN (some []) fp = ⟨false, none, []⟩ := by
  intro existingP existingN fp
  exact ⟨rfl, rfl, rfl, rfl⟩
